import Mathlib

/-!
Verification development for `example/qutip_integration.py` of the SeQUeNCe
repository: ad hoc generation of a 3-qubit GHZ state from two Bell-diagonal
states (BDS), via a direct noisy CNOT merge (`merge`) and a teleported-CNOT
merge (`gate_teleport`), on top of QuTiP density-operator algebra.

Modelling notes.

* Every matrix entry that ever appears in this program lies in the real
  quadratic field ℚ(√2): Bell kets and the Hadamard carry 1/√2, and all
  gates (CNOT, SWAP, Pauli X, Pauli Z) and projectors are real.  Scalars are
  therefore modelled by the type `Q2` of numbers `a + b·√2` with `a b : ℚ`
  (the float `np.sqrt(2)` is modelled as the exact √2).  No complex entries
  occur anywhere in the file (σ_y is never used), so real entries suffice
  and the adjoint `.dag()` is the plain transpose.
* QuTiP `Qobj` values carry a pair of dimension lists (`dims[0]`, `dims[1]`);
  `Qobj.__mul__` and `Qobj.__add__` raise `TypeError` unless the dimension
  lists match exactly (e.g. `identity(4)`, of dims `[[4],[4]]`, is NOT
  composable with a two-qubit operator of dims `[[2,2],[2,2]]` even though
  both are 4×4).  The embedding keeps this bookkeeping: `Qobj` stores the
  two dims lists, and fallible QuTiP operations return `Except PyErr Qobj`.
* Matrix data is stored as a total function `ℕ → ℕ → Q2`; primitive
  constructors are zero outside the matrix range, and all operations
  preserve that normalization, so extensional equality of `Qobj`s is
  equality of dims plus entrywise equality.
-/

namespace QutipGhz

/-- The real quadratic field ℚ(√2): the value `a + b·√2`.  Exact scalar
domain for every matrix entry occurring in `qutip_integration.py`. -/
@[ext] structure Q2 where
  a : ℚ
  b : ℚ
deriving DecidableEq

namespace Q2

instance : Zero Q2 := ⟨⟨0, 0⟩⟩
instance : One Q2 := ⟨⟨1, 0⟩⟩
instance : Add Q2 := ⟨fun x y => ⟨x.a + y.a, x.b + y.b⟩⟩
instance : Neg Q2 := ⟨fun x => ⟨-x.a, -x.b⟩⟩
instance : Sub Q2 := ⟨fun x y => ⟨x.a - y.a, x.b - y.b⟩⟩
instance : Mul Q2 := ⟨fun x y => ⟨x.a * y.a + 2 * (x.b * y.b), x.a * y.b + x.b * y.a⟩⟩

@[simp] lemma zero_a : (0 : Q2).a = 0 := rfl
@[simp] lemma zero_b : (0 : Q2).b = 0 := rfl
@[simp] lemma one_a : (1 : Q2).a = 1 := rfl
@[simp] lemma one_b : (1 : Q2).b = 0 := rfl
@[simp] lemma add_a (x y : Q2) : (x + y).a = x.a + y.a := rfl
@[simp] lemma add_b (x y : Q2) : (x + y).b = x.b + y.b := rfl
@[simp] lemma neg_a (x : Q2) : (-x).a = -x.a := rfl
@[simp] lemma neg_b (x : Q2) : (-x).b = -x.b := rfl
@[simp] lemma sub_a (x y : Q2) : (x - y).a = x.a - y.a := rfl
@[simp] lemma sub_b (x y : Q2) : (x - y).b = x.b - y.b := rfl
@[simp] lemma mul_a (x y : Q2) : (x * y).a = x.a * y.a + 2 * (x.b * y.b) := rfl
@[simp] lemma mul_b (x y : Q2) : (x * y).b = x.a * y.b + x.b * y.a := rfl

instance : CommRing Q2 where
  add_assoc x y z := by ext <;> simp <;> ring
  add_comm x y := by ext <;> simp <;> ring
  zero_add x := by ext <;> simp
  add_zero x := by ext <;> simp
  neg_add_cancel x := by ext <;> simp
  mul_assoc x y z := by ext <;> simp <;> ring
  mul_comm x y := by ext <;> simp <;> ring
  one_mul x := by ext <;> simp
  mul_one x := by ext <;> simp
  left_distrib x y z := by ext <;> simp <;> ring
  right_distrib x y z := by ext <;> simp <;> ring
  zero_mul x := by ext <;> simp
  mul_zero x := by ext <;> simp
  sub_eq_add_neg x y := by ext <;> simp <;> ring
  nsmul := nsmulRec
  zsmul := zsmulRec

/-- Embedding of the rationals (Python floats are modelled as exact
rationals) into ℚ(√2). -/
def ofRat (q : ℚ) : Q2 := ⟨q, 0⟩

@[simp] lemma ofRat_a (q : ℚ) : (ofRat q).a = q := rfl
@[simp] lemma ofRat_b (q : ℚ) : (ofRat q).b = 0 := rfl

@[simp] lemma ofRat_zero : ofRat 0 = 0 := rfl
@[simp] lemma ofRat_one : ofRat 1 = 1 := rfl
@[simp] lemma ofRat_add (p q : ℚ) : ofRat (p + q) = ofRat p + ofRat q := by
  ext <;> simp
@[simp] lemma ofRat_sub (p q : ℚ) : ofRat (p - q) = ofRat p - ofRat q := by
  ext <;> simp
@[simp] lemma ofRat_mul (p q : ℚ) : ofRat (p * q) = ofRat p * ofRat q := by
  ext <;> simp

lemma ofRat_injective : Function.Injective ofRat := by
  intro p q h
  simpa [ofRat, Q2.mk.injEq] using h

/-- The value √2. -/
def sqrt2 : Q2 := ⟨0, 1⟩

/-- Multiplicative inverse in ℚ(√2); the conjugate over the norm.  Total,
with junk value 0 at 0 (the norm `a² - 2b²` of a nonzero element is nonzero
because √2 is irrational). -/
def inv (x : Q2) : Q2 :=
  let d := x.a ^ 2 - 2 * x.b ^ 2
  ⟨x.a / d, -x.b / d⟩

/-- The value 1/√2 (= √2/2), the normalization factor of Bell kets, the
`|+⟩` state and the Hadamard. -/
def invSqrt2 : Q2 := ⟨0, 1 / 2⟩

lemma inv_sqrt2 : inv sqrt2 = invSqrt2 := by
  simp [inv, sqrt2, invSqrt2]

end Q2

/-- Python exceptions that the program (through QuTiP) can raise, plus the
`ParameterOutOfRange` kind that the specification postulates (the code
never raises it; the constructor exists so that statements can compare
against it). -/
inductive PyErr where
  /-- `TypeError: bell_dm() missing 1 required positional argument`, raised
  when `bell_dm` is invoked with a single argument. -/
  | typeErrorMissingArg
  /-- `TypeError` raised by QuTiP `Qobj.__mul__` / `__add__` when the
  dimension lists of the operands do not match. -/
  | typeErrorIncompatibleDims
  /-- Error raised inside QuTiP `bell_state` when its string argument is
  none of `00`, `01`, `10`, `11` (an `UnboundLocalError` in QuTiP 4, a
  `ValueError` in QuTiP 5; both reject such strings). -/
  | invalidBellStateStr
  /-- `UnboundLocalError` for a variable that no conditional branch
  assigned before use. -/
  | unboundLocal
  /-- Index out of range (list access). -/
  | indexError
  /-- Dimension error raised by QuTiP `ptrace` for selection indices out of
  range. -/
  | ptraceIndexError
  /-- The error kind `ParameterOutOfRange` that the specification assigns
  to fidelity parameters outside [0,1]; no code path produces it. -/
  | paramOutOfRange
deriving DecidableEq

/-- A QuTiP quantum object: row/column dimension lists (QuTiP `dims[0]` and
`dims[1]`) plus the matrix, stored as a total function that is zero outside
the `rdims.prod × cdims.prod` range. -/
structure Qobj where
  rdims : List ℕ
  cdims : List ℕ
  mat : ℕ → ℕ → Q2

/-- Total row dimension (the matrix has `rdims.prod` rows). -/
abbrev Qobj.rdim (A : Qobj) : ℕ := A.rdims.prod

/-- Total column dimension. -/
abbrev Qobj.cdim (A : Qobj) : ℕ := A.cdims.prod

lemma Qobj.ext_of {A B : Qobj} (h1 : A.rdims = B.rdims) (h2 : A.cdims = B.cdims)
    (h3 : ∀ i j, A.mat i j = B.mat i j) : A = B := by
  cases A; cases B
  simp_all only [Qobj.mk.injEq]
  exact ⟨trivial, trivial, funext fun i => funext fun j => h3 i j⟩

/-- QuTiP `identity(n)`: dims `[[n],[n]]`.  Note that `identity(4)` is a
single tensor factor of dimension 4, not two qubit factors. -/
def identityQ (n : ℕ) : Qobj :=
  ⟨[n], [n], fun i j => if i = j ∧ i < n then 1 else 0⟩

/-- QuTiP `basis(n, i)`: the `i`-th computational basis ket, dims
`[[n],[1]]`. -/
def basisQ (n i : ℕ) : Qobj :=
  ⟨[n], [1], fun r c => if r = i ∧ c = 0 ∧ r < n then 1 else 0⟩

/-- QuTiP `sigmax()`. -/
def sigmaxQ : Qobj :=
  ⟨[2], [2], fun i j => if (i = 0 ∧ j = 1) ∨ (i = 1 ∧ j = 0) then 1 else 0⟩

/-- QuTiP `sigmaz()`. -/
def sigmazQ : Qobj :=
  ⟨[2], [2], fun i j =>
    if i = 0 ∧ j = 0 then 1 else if i = 1 ∧ j = 1 then -1 else 0⟩

/-- `qutip_qip.operations.cnot()`: two-qubit CNOT, control on the first
(most significant) factor, dims `[[2,2],[2,2]]`. -/
def cnotQ : Qobj :=
  ⟨[2, 2], [2, 2], fun i j =>
    if (i = 0 ∧ j = 0) ∨ (i = 1 ∧ j = 1) ∨ (i = 2 ∧ j = 3) ∨ (i = 3 ∧ j = 2)
    then 1 else 0⟩

/-- `qutip_qip.operations.swap()`: two-qubit SWAP, dims `[[2,2],[2,2]]`. -/
def swapQ : Qobj :=
  ⟨[2, 2], [2, 2], fun i j =>
    if (i = 0 ∧ j = 0) ∨ (i = 1 ∧ j = 2) ∨ (i = 2 ∧ j = 1) ∨ (i = 3 ∧ j = 3)
    then 1 else 0⟩

/-- `qutip_qip.operations.hadamard_transform()` (one qubit): the matrix
`(1/√2)·[[1,1],[1,-1]]`, dims `[[2],[2]]`. -/
def hadamardQ : Qobj :=
  ⟨[2], [2], fun i j =>
    if i < 2 ∧ j < 2 then (if i = 1 ∧ j = 1 then -Q2.invSqrt2 else Q2.invSqrt2)
    else 0⟩

/-- Adjoint, QuTiP `.dag()`.  All entries in this development are real
(σ_y never occurs), so the adjoint is the transpose. -/
def dagQ (A : Qobj) : Qobj := ⟨A.cdims, A.rdims, fun i j => A.mat j i⟩

/-- Scalar multiplication `c * Qobj` (never fails in QuTiP). -/
def qsmul (c : Q2) (A : Qobj) : Qobj := ⟨A.rdims, A.cdims, fun i j => c * A.mat i j⟩

/-- `Qobj / scalar` (QuTiP `__truediv__`): multiplication by the inverse. -/
def qdivs (A : Qobj) (c : Q2) : Qobj := qsmul (Q2.inv c) A

/-- QuTiP `tensor` of two objects: dims lists concatenate, the left factor
is the most significant index block. -/
def tensorQ (A B : Qobj) : Qobj :=
  ⟨A.rdims ++ B.rdims, A.cdims ++ B.cdims, fun i j =>
    if i < A.rdim * B.rdim ∧ j < A.cdim * B.cdim then
      A.mat (i / B.rdim) (j / B.cdim) * B.mat (i % B.rdim) (j % B.cdim)
    else 0⟩

/-- QuTiP `Qobj.__mul__` (matrix product): raises `TypeError` unless
`dims[1]` of the left operand equals `dims[0]` of the right operand as
lists (shape equality alone is not enough). -/
def qmul (A B : Qobj) : Except PyErr Qobj :=
  if A.cdims = B.rdims then
    .ok ⟨A.rdims, B.cdims, fun i j =>
      ∑ k ∈ Finset.range A.cdim, A.mat i k * B.mat k j⟩
  else .error .typeErrorIncompatibleDims

/-- QuTiP `Qobj.__add__`: raises `TypeError` unless both dims lists
match. -/
def qadd (A B : Qobj) : Except PyErr Qobj :=
  if A.rdims = B.rdims ∧ A.cdims = B.cdims then
    .ok ⟨A.rdims, A.cdims, fun i j => A.mat i j + B.mat i j⟩
  else .error .typeErrorIncompatibleDims

/-- QuTiP `.tr()`: sum of the diagonal. -/
def traceQ (A : Qobj) : Q2 := ∑ i ∈ Finset.range A.rdim, A.mat i i

/-- Mixed-radix decomposition of a flat index along a dims list, most
significant factor first (QuTiP index convention). -/
def multiIndex : List ℕ → ℕ → List ℕ
  | [], _ => []
  | _ :: rest, n => n / rest.prod :: multiIndex rest (n % rest.prod)

/-- Mixed-radix recomposition of a flat index from its digits. -/
def flattenIndex : List ℕ → List ℕ → ℕ
  | _ :: rest, i :: irest => i * rest.prod + flattenIndex rest irest
  | _, _ => 0

/-- Rebuild a full digit list from digits on the kept positions (`sel`) and
digits on the complementary positions (`comp`). -/
def mergeDigits (n : ℕ) (sel comp : List ℕ) (ki ci : List ℕ) : List ℕ :=
  (List.range n).map fun p =>
    if p ∈ sel then ki.getD (sel.indexOf p) 0 else ci.getD (comp.indexOf p) 0

/-- QuTiP `Qobj.ptrace(sel)`: keep the tensor factors listed in `sel`
(increasing in all uses in the program), summing out the others.  Raises
for selection indices out of range. -/
def ptraceQ (A : Qobj) (sel : List ℕ) : Except PyErr Qobj :=
  if A.rdims = A.cdims ∧ sel.all (· < A.rdims.length) then
    let d := A.rdims
    let comp := (List.range d.length).filter (· ∉ sel)
    let nd := sel.map fun p => d.getD p 1
    let cd := comp.map fun p => d.getD p 1
    .ok ⟨nd, nd, fun i j =>
      if i < nd.prod ∧ j < nd.prod then
        ∑ e ∈ Finset.range cd.prod,
          A.mat (flattenIndex d (mergeDigits d.length sel comp (multiIndex nd i) (multiIndex cd e)))
                (flattenIndex d (mergeDigits d.length sel comp (multiIndex nd j) (multiIndex cd e)))
      else 0⟩
  else .error .ptraceIndexError

/-- QuTiP `measure_povm(state, ops)` on a density matrix: for each
measurement operator `M`, the candidate collapsed operator is
`M ρ M.dag()`; outcome `i` occurs with probability `tr(M_i ρ M_i.dag())`
and the collapsed state is renormalized by that trace.  The pseudo-random
draw is made explicit: `r` is the index of the outcome that the sampler
returned.  Each product carries the QuTiP dims check, so incompatible
`ops` raise `TypeError` exactly as in QuTiP. -/
def measurePovm (state : Qobj) (ops : List Qobj) (r : ℕ) :
    Except PyErr (ℕ × Qobj) := do
  let collapsed ← ops.mapM fun M => do
    let t ← qmul M state
    qmul t (dagQ M)
  match collapsed[r]? with
  | some c => .ok (r, qdivs c (traceQ c))
  | none => .error .indexError

/-! ### Translation of `example/qutip_integration.py` -/

/-- Python `format(idx, "b")` : the binary representation of a natural
number without leading zeros (`format(0,"b") = "0"`, `format(2,"b") =
"10"`). -/
def natToBin (n : ℕ) : String := ⟨Nat.toDigits 2 n⟩

/-- QuTiP `bell_state(s)`: the Bell ket selected by the two-character
string `s` — `"00"` ↦ (|00⟩+|11⟩)/√2, `"01"` ↦ (|00⟩−|11⟩)/√2, `"10"` ↦
(|01⟩+|10⟩)/√2, `"11"` ↦ (|01⟩−|10⟩)/√2 (the `.unit()` normalization gives
the 1/√2 entries) — and an error for every other string: QuTiP 4 leaves
its result variable unassigned (`UnboundLocalError`), QuTiP 5 raises
`ValueError`. -/
def bellState (s : String) : Except PyErr Qobj :=
  if s = "00" then
    .ok ⟨[2, 2], [1, 1], fun r c => if c = 0 ∧ (r = 0 ∨ r = 3) then Q2.invSqrt2 else 0⟩
  else if s = "01" then
    .ok ⟨[2, 2], [1, 1], fun r c =>
      if c = 0 then (if r = 0 then Q2.invSqrt2 else if r = 3 then -Q2.invSqrt2 else 0) else 0⟩
  else if s = "10" then
    .ok ⟨[2, 2], [1, 1], fun r c => if c = 0 ∧ (r = 1 ∨ r = 2) then Q2.invSqrt2 else 0⟩
  else if s = "11" then
    .ok ⟨[2, 2], [1, 1], fun r c =>
      if c = 0 then (if r = 1 then Q2.invSqrt2 else if r = 2 then -Q2.invSqrt2 else 0) else 0⟩
  else .error .invalidBellStateStr

/-- The running value of the `bell_dm` accumulator: it starts as the plain
Python integer `0` (line 27 of the source) and becomes a `Qobj` after the
first loop iteration. -/
inductive BellVal where
  | pyInt (n : ℤ)
  | q (A : Qobj)

/-- Python `int + Qobj`: QuTiP adds the scalar times the identity to the
operator (only the scalar 0 ever occurs in this program). -/
def pyAddIntQobj (n : ℤ) (x : Qobj) : Qobj :=
  ⟨x.rdims, x.cdims, fun i j =>
    (if i = j ∧ i < x.rdim then (n : Q2) else 0) + x.mat i j⟩

/-- One `bell_dm +=` step (line 32): integer accumulator + Qobj uses the
scalar-addition rule, Qobj accumulator + Qobj is the dims-checked sum. -/
def bellAcc (acc : BellVal) (x : Qobj) : Except PyErr BellVal :=
  match acc with
  | .pyInt n => .ok (.q (pyAddIntQobj n x))
  | .q A => (qadd A x).map .q

/-- The `for elem, idx in zip(state, elem_order)` loop of `bell_dm`
(lines 29–32): each step formats the Bell index as a binary string, asks
QuTiP for the Bell ket, forms the projector and accumulates
`elem * projector`. -/
def bellDmLoop (acc : BellVal) : List (ℚ × ℕ) → Except PyErr BellVal
  | [] => .ok acc
  | (elem, idx) :: rest => do
    let idx_str := natToBin idx
    let bs ← bellState idx_str
    let pure_bell_dm ← qmul bs (dagQ bs)
    let acc2 ← bellAcc acc (qsmul (Q2.ofRat elem) pure_bell_dm)
    bellDmLoop acc2 rest

/-- `bell_dm(state, elem_order)` (lines 13–34): create a BDS density matrix
from the diagonal-element vector and the Bell-index order.  `zip`
silently truncates to the shorter argument; the accumulator starts as the
Python integer 0 and is returned unchanged when the loop body never
runs. -/
def bellDm (state : List ℚ) (elem_order : List ℕ) : Except PyErr BellVal :=
  bellDmLoop (.pyInt 0) (state.zip elem_order)

/-- The calls `bell_dm(state1)` / `bell_dm(state2)` on lines 72–73 and
121–122: `bell_dm` declares two required positional parameters, so a
one-argument invocation raises `TypeError: bell_dm() missing 1 required
positional argument` before any gate, measurement, or other statement of
the caller body executes. -/
def bellDmOneArg (_state : List ℚ) : Except PyErr Qobj :=
  .error .typeErrorMissingArg

/-- `noisy_meas(fid)` (lines 37–52): the two-element POVM
`[fid·|0⟩⟨0| + (1−fid)·|1⟩⟨1|, fid·|1⟩⟨1| + (1−fid)·|0⟩⟨0|]`.  The
function performs no validation of `fid`. -/
def noisyMeas (fid : ℚ) : Except PyErr (Qobj × Qobj) := do
  let b0 := basisQ 2 0
  let b1 := basisQ 2 1
  let p00 ← qmul b0 (dagQ b0)
  let p11 ← qmul b1 (dagQ b1)
  let povm_0 ← qadd (qsmul (Q2.ofRat fid) p00) (qsmul (Q2.ofRat (1 - fid)) p11)
  let povm_1 ← qadd (qsmul (Q2.ofRat fid) p11) (qsmul (Q2.ofRat (1 - fid)) p00)
  .ok (povm_0, povm_1)

/-- The feedforward correction of `merge` (lines 92–97): no correction for
outcome 0; for outcome 1 conjugation by `x_gate = tensor(sigmax(),
identity(4))`.  The source uses two independent `if` statements and no
`else`, so a result outside {0,1} would leave `ghz_state` unassigned
(`UnboundLocalError` at `return`). -/
def mergeCorrection (res : ℕ) (post_meas_state : Qobj) : Except PyErr Qobj := do
  if res = 0 then
    .ok post_meas_state
  else if res = 1 then
    let x_gate := tensorQ sigmaxQ (identityQ 4)
    let t ← qmul x_gate post_meas_state
    qmul t (dagQ x_gate)
  else
    .error .unboundLocal

/-- The body of `merge` from line 74 on, as a function of the two BDS
operators the two `bell_dm` calls were meant to produce (the calls
themselves raise, see `bellDmOneArg`); `r` is the sampled measurement
outcome.  Statements follow the Python evaluation order. -/
def mergeBody (bell_dm_1 bell_dm_2 : Qobj) (cnot_fid meas_fid : ℚ) (r : ℕ) :
    Except PyErr Qobj := do
  let init_state := tensorQ bell_dm_1 bell_dm_2
  let cnot_12 := tensorQ (tensorQ (identityQ 2) cnotQ) (identityQ 2)
  let swap_12 := tensorQ (tensorQ (identityQ 2) swapQ) (identityQ 2)
  let swap_23 := tensorQ (identityQ 4) swapQ
  -- lines 80–81
  let t1 ← qmul (qsmul (Q2.ofRat cnot_fid) cnot_12) init_state
  let t1 ← qmul t1 (dagQ cnot_12)
  let t2 ← qmul (qsmul (Q2.ofRat (1 - cnot_fid)) swap_23) swap_12
  -- the step above always raises TypeError in QuTiP: swap_23 has dims
  -- [[4,2,2]] while swap_12 has dims [[2,2,2,2]]; everything below is dead
  let pt ← ptraceQ init_state [0, 3]
  let t2 ← qmul t2 (qdivs (tensorQ pt (identityQ 4)) 4)
  let t2 ← qmul t2 (dagQ swap_12)
  let t2 ← qmul t2 (dagQ swap_23)
  let post_cnot_state ← qadd t1 t2
  -- lines 84–88
  let (povm0, povm1) ← noisyMeas meas_fid
  let povm0 := tensorQ (tensorQ (identityQ 2) povm0) (identityQ 4)
  let povm1 := tensorQ (tensorQ (identityQ 2) povm1) (identityQ 4)
  let povms := [povm0, povm1]
  let (res, post_meas_state) ← measurePovm post_cnot_state povms r
  -- line 91: `post_meas_state.ptrace([0,1,2])` — computed, result discarded
  let _unused ← ptraceQ post_meas_state [0, 1, 2]
  mergeCorrection res post_meas_state

/-- `merge(state1, state2, cnot_fid, meas_fid)` (lines 55–99) with the
sampled measurement outcome `r` made explicit.  Lines 72–73 invoke
`bell_dm` with one argument. -/
def merge (state1 state2 : List ℚ) (cnot_fid meas_fid : ℚ) (r : ℕ) :
    Except PyErr Qobj := do
  let bell_dm_1 ← bellDmOneArg state1
  let bell_dm_2 ← bellDmOneArg state2
  mergeBody bell_dm_1 bell_dm_2 cnot_fid meas_fid r

/-- The 4-branch noisy-CNOT combination of `gate_teleport`, exactly as on
lines 142 and 197: `cnot_fid**2 * state_both_succ + cnot_fid *
(state_a_succ + state_b_succ) + (1-cnot_fid)**2 * state_both_fail`.  Note
the single-success coefficient is `cnot_fid`, not
`cnot_fid*(1-cnot_fid)`. -/
def postCnotCombine (cnot_fid : ℚ) (s_both_succ s_a_succ s_b_succ s_both_fail : Qobj) :
    Except PyErr Qobj := do
  let t ← qadd s_a_succ s_b_succ
  let u ← qadd (qsmul (Q2.ofRat (cnot_fid ^ 2)) s_both_succ)
               (qsmul (Q2.ofRat cnot_fid) t)
  qadd u (qsmul (Q2.ofRat ((1 - cnot_fid) ^ 2)) s_both_fail)

/-- The second-round X-basis measurement step of `gate_teleport`
(lines 207–216): builds the POVMs for qubit 3
(`tensor(identity(4), povm, identity(2))`, a 16-dimensional operator),
conjugates the 32-dimensional running state by
`hadamard_3 = tensor(identity(8), hadamard_transform(), identity(2))` into
`post_meas1_state` — which is never read again — and then measures the
UNROTATED `post_meas2_state`. -/
def gtXmeasRound2 (povm0 povm1 : Qobj) (post_meas2_state : Qobj) (r : ℕ) :
    Except PyErr (ℕ × Qobj) := do
  let povm0_3 := tensorQ (tensorQ (identityQ 4) povm0) (identityQ 2)
  let povm1_3 := tensorQ (tensorQ (identityQ 4) povm1) (identityQ 2)
  let povms_3 := [povm0_3, povm1_3]
  let hadamard_3 := tensorQ (tensorQ (identityQ 8) hadamardQ) (identityQ 2)
  let t ← qmul hadamard_3 post_meas2_state
  let _post_meas1_state ← qmul t (dagQ hadamard_3)
  measurePovm post_meas2_state povms_3 r

/-- The body of `gate_teleport` from line 124 on, as a function of the two
BDS operators (the one-argument `bell_dm` calls on lines 121–122 raise
first, see `bellDmOneArg`); `r1 r2 r3 r4` are the four sampled measurement
outcomes in program order. -/
def gateTeleportBody (bell_dm_1 bell_dm_2 : Qobj) (cnot_fid meas_fid : ℚ)
    (r1 r2 r3 r4 : ℕ) : Except PyErr Qobj := do
  let (povm0, povm1) ← noisyMeas meas_fid
  let plus_ket ← qadd (basisQ 2 0) (basisQ 2 1)
  let plus_state := qdivs plus_ket Q2.sqrt2
  let plus_dm ← qmul plus_state (dagQ plus_state)
  let zero_dm ← qmul (basisQ 2 0) (dagQ (basisQ 2 0))
  -- 1st teleported CNOT (lines 131–176)
  let init_state := tensorQ (tensorQ plus_dm bell_dm_1) zero_dm
  let cnot_01 := tensorQ cnotQ (identityQ 4)
  let cnot_23 := tensorQ (identityQ 4) cnotQ
  let cnot_01_23 ← qmul cnot_01 cnot_23
  -- the step above always raises TypeError in QuTiP: cnot_01 has dims
  -- [[2,2,4]] while cnot_23 has dims [[4,2,2]]; everything below is dead
  let sbs ← qmul cnot_01_23 init_state
  let state_both_succ ← qmul sbs (dagQ cnot_01_23)
  let s01 ← qmul cnot_01 init_state
  let s01 ← qmul s01 (dagQ cnot_01)
  let s01 ← ptraceQ s01 [0, 1]
  let state_01_succ := tensorQ s01 (qdivs (identityQ 4) 4)
  let s23 ← qmul cnot_23 init_state
  let s23 ← qmul s23 (dagQ cnot_23)
  let s23 ← ptraceQ s23 [2, 3]
  let state_23_succ := tensorQ (qdivs (identityQ 4) 4) s23
  let state_both_fail := tensorQ (qdivs (identityQ 4) 4) (qdivs (identityQ 4) 4)
  let post_cnot_state ← postCnotCombine cnot_fid state_both_succ state_01_succ
    state_23_succ state_both_fail
  -- measure qubit 1 in the Z basis (lines 146–150)
  let povm0_1 := tensorQ (tensorQ (identityQ 2) povm0) (identityQ 4)
  let povm1_1 := tensorQ (tensorQ (identityQ 2) povm1) (identityQ 4)
  let povms_1 := [povm0_1, povm1_1]
  let (res1, post_meas1_state) ← measurePovm post_cnot_state povms_1 r1
  -- measure qubit 2 in the X basis (lines 154–161)
  let povm0_2 := tensorQ (tensorQ (identityQ 4) povm0) (identityQ 2)
  let povm1_2 := tensorQ (tensorQ (identityQ 4) povm1) (identityQ 2)
  let povms_2 := [povm0_2, povm1_2]
  let hadamard_2 := tensorQ (tensorQ (identityQ 4) hadamardQ) (identityQ 2)
  let h ← qmul hadamard_2 post_meas1_state
  let post_meas1_state ← qmul h (dagQ hadamard_2)
  let (res2, post_meas2_state) ← measurePovm post_meas1_state povms_2 r2
  -- trace out qubits 1 and 2, feedforward correction (lines 164–176)
  let post_meas_state ← ptraceQ post_meas2_state [0, 3]
  let x_gate := tensorQ (identityQ 2) sigmaxQ
  let z_gate := tensorQ sigmazQ (identityQ 2)
  let final_state ←
    if res1 = 0 ∧ res2 = 0 then
      pure post_meas_state
    else if res1 = 1 ∧ res2 = 0 then do
      let t ← qmul x_gate post_meas_state
      qmul t (dagQ x_gate)
    else if res1 = 0 ∧ res2 = 1 then do
      let t ← qmul z_gate post_meas_state
      qmul t (dagQ z_gate)
    else if res1 = 1 ∧ res2 = 1 then do
      let t ← qmul z_gate x_gate
      let t ← qmul t post_meas_state
      let t ← qmul t (dagQ x_gate)
      qmul t (dagQ z_gate)
    else
      -- no `else` in the source: `final_state` would be unbound
      .error .unboundLocal
  -- 2nd teleported CNOT (lines 179–197)
  let fs ← qmul swapQ final_state
  let final_state ← qmul fs (dagQ swapQ)
  let init_state := tensorQ (tensorQ final_state bell_dm_2) zero_dm
  let cnot_12 := tensorQ (tensorQ (identityQ 2) cnotQ) (identityQ 4)
  let cnot_34 := tensorQ (identityQ 8) cnotQ
  let cnot_12_34 ← qmul cnot_12 cnot_34
  let sbs2 ← qmul cnot_12_34 init_state
  let state_both_succ ← qmul sbs2 (dagQ cnot_12_34)
  let s12 ← qmul cnot_12 init_state
  let s12 ← qmul s12 (dagQ cnot_12)
  let s12 ← ptraceQ s12 [0, 1, 2]
  let state_12_succ := tensorQ s12 (qdivs (identityQ 4) 4)
  let s34 ← qmul cnot_34 init_state
  let s34 ← qmul s34 (dagQ cnot_34)
  let s34 ← ptraceQ s34 [0, 3, 4]
  let state_34_succ := tensorQ (qdivs (identityQ 4) 4) s34
  -- lines 192–194: permute qubits 0,1,2 to 1,2,0
  let swap_01 := tensorQ swapQ (identityQ 8)
  let swap_12 := tensorQ (tensorQ (identityQ 2) swapQ) (identityQ 2)
  let sw ← qmul swap_01 swap_12
  let sw ← qmul sw state_34_succ
  let sw ← qmul sw (dagQ swap_12)
  let state_34_succ ← qmul sw (dagQ swap_01)
  let pt0 ← ptraceQ init_state [0]
  let state_both_fail := tensorQ (tensorQ pt0 (qdivs (identityQ 4) 4))
    (qdivs (identityQ 4) 4)
  let post_cnot_state ← postCnotCombine cnot_fid state_both_succ state_12_succ
    state_34_succ state_both_fail
  -- measure qubit 2 in the Z basis (lines 201–205)
  let povm0_2 := tensorQ (tensorQ (identityQ 4) povm0) (identityQ 4)
  let povm1_2 := tensorQ (tensorQ (identityQ 4) povm1) (identityQ 4)
  let povms_2 := [povm0_2, povm1_2]
  let (res2b, post_meas2_state) ← measurePovm post_cnot_state povms_2 r3
  -- measure qubit 3 in the X basis (lines 209–216)
  let (res3, post_meas2_state) ← gtXmeasRound2 povm0 povm1 post_meas2_state r4
  -- trace out qubits 2 and 3, feedforward correction (lines 219–231)
  let post_meas_state ← ptraceQ post_meas2_state [0, 1, 4]
  let x_gate := tensorQ (identityQ 4) sigmaxQ
  let z_gate := tensorQ (tensorQ (identityQ 2) sigmazQ) (identityQ 2)
  if res2b = 0 ∧ res3 = 0 then
    pure post_meas_state
  else if res2b = 1 ∧ res3 = 0 then do
    let t ← qmul x_gate post_meas_state
    qmul t (dagQ x_gate)
  else if res2b = 0 ∧ res3 = 1 then do
    let t ← qmul z_gate post_meas_state
    qmul t (dagQ z_gate)
  else if res2b = 1 ∧ res3 = 1 then do
    let t ← qmul z_gate x_gate
    let t ← qmul t post_meas_state
    let t ← qmul t (dagQ x_gate)
    qmul t (dagQ z_gate)
  else
    .error .unboundLocal

/-- `gate_teleport(state1, state2, cnot_fid, meas_fid)` (lines 102–233)
with the four sampled measurement outcomes made explicit.  Lines 121–122
invoke `bell_dm` with one argument. -/
def gateTeleport (state1 state2 : List ℚ) (cnot_fid meas_fid : ℚ)
    (r1 r2 r3 r4 : ℕ) : Except PyErr Qobj := do
  let bell_dm_1 ← bellDmOneArg state1
  let bell_dm_2 ← bellDmOneArg state2
  gateTeleportBody bell_dm_1 bell_dm_2 cnot_fid meas_fid r1 r2 r3 r4

/-! ### Specification-side definitions used for comparison -/

/-- The POVM element stated by the specification for `noisy_meas`:
`M_k = fid·|k⟩⟨k| + (1−fid)·|1−k⟩⟨1−k|` in the computational basis, written
directly as its 2×2 matrix. -/
def noisyMeasSpecElem (f : ℚ) (k : ℕ) : Qobj :=
  ⟨[2], [2], fun i j =>
    if i = j ∧ i < 2 then (if i = k then Q2.ofRat f else Q2.ofRat (1 - f)) else 0⟩

/-- The exact projective Z-measurement element `|k⟩⟨k|`. -/
def projKet (k : ℕ) : Qobj :=
  ⟨[2], [2], fun i j => if i = j ∧ i = k ∧ i < 2 then 1 else 0⟩

/-- A fixed trace-one density operator (`|0⟩⟨0|` on one qubit), used to
instantiate hypotheses at concrete inputs. -/
def unitProj : Qobj := ⟨[2], [2], fun i j => if i = 0 ∧ j = 0 then 1 else 0⟩

/-! ### Claim theorems -/

lemma exceptBind_ok {α β : Type} (a : α) (k : α → Except PyErr β) :
    (Except.ok a >>= k) = k a := rfl

/-- Claim C1: the specification scenario — `bds1 = bds2` the Bell-diagonal
vector `[1,0,0,0]` with identity index order and both fidelities 1 — is
supposed to make `merge` return the canonical GHZ state with fidelity 1;
instead, for every sampled measurement outcome, the call raises `TypeError`
at the one-argument `bell_dm(state1)` invocation and returns nothing. -/
theorem merge_spec_scenario_raises_typeerror :
    ∀ r : ℕ, merge [1, 0, 0, 0] [1, 0, 0, 0] 1 1 r =
      .error .typeErrorMissingArg :=
  fun _ => rfl

/-- Claim C2: for every choice of arguments and sampled outcomes, both
`merge` and `gate_teleport` raise `TypeError` at their first statement —
the one-argument `bell_dm` call — so neither entry point ever returns a
density operator. -/
theorem merge_gateTeleport_always_raise_typeerror :
    ∀ (s1 s2 : List ℚ) (f g : ℚ) (r r1 r2 r3 r4 : ℕ),
      merge s1 s2 f g r = .error .typeErrorMissingArg ∧
      gateTeleport s1 s2 f g r1 r2 r3 r4 = .error .typeErrorMissingArg :=
  fun _ _ _ _ _ _ _ _ _ => ⟨rfl, rfl⟩

/-- Claim C3: the claimed invariant (every density operator produced by
`merge` and `gate_teleport` is Hermitian, PSD, trace one) cannot hold
because neither function ever produces one: at the valid input
`([1,0,0,0], [1,0,0,0], 1, 1)` `gate_teleport` raises `TypeError` at its
one-argument `bell_dm` call, for all sampled outcomes. -/
theorem gateTeleport_spec_scenario_raises_typeerror :
    ∀ r1 r2 r3 r4 : ℕ, gateTeleport [1, 0, 0, 0] [1, 0, 0, 0] 1 1 r1 r2 r3 r4 =
      .error .typeErrorMissingArg :=
  fun _ _ _ _ => rfl

/-- Claim C5: the `merge` body can never discard the measured qubit and
hand a 3-qubit operator to the correction: for every pair of two-qubit BDS
operators, every pair of fidelities and every sampled outcome, the body
raises `TypeError` already at the noisy-CNOT mixture (line 81, QuTiP dims
`[[4,2,2]]` times `[[2,2,2,2]]`) — and the partial trace on line 91 is in
any case computed and discarded without being assigned. -/
theorem mergeBody_always_raises_dims_typeerror :
    ∀ (m1 m2 : ℕ → ℕ → Q2) (f g : ℚ) (r : ℕ),
      mergeBody ⟨[2, 2], [2, 2], m1⟩ ⟨[2, 2], [2, 2], m2⟩ f g r =
        .error .typeErrorIncompatibleDims :=
  fun _ _ _ _ _ => rfl

/-- Claim C6: the feedforward correction of `merge` leaves the state
unchanged for outcome 0, as claimed; but for outcome 1 it cannot apply
`X ρ X†` on qubit 0: `x_gate = tensor(sigmax(), identity(4))` has QuTiP
dims `[[2,4]]`, so its product with the 4-qubit post-measurement state
(dims `[[2,2,2,2]]`, since line 91 never reassigns the traced state) —
and even with a genuine 3-qubit residual (dims `[[2,2,2]]`) — raises
`TypeError`. -/
theorem mergeCorrection_res0_id_res1_raises :
    (∀ ρ : Qobj, mergeCorrection 0 ρ = .ok ρ) ∧
    (∀ m : ℕ → ℕ → Q2, mergeCorrection 1 ⟨[2, 2, 2], [2, 2, 2], m⟩ =
      .error .typeErrorIncompatibleDims) ∧
    (∀ m : ℕ → ℕ → Q2, mergeCorrection 1 ⟨[2, 2, 2, 2], [2, 2, 2, 2], m⟩ =
      .error .typeErrorIncompatibleDims) :=
  ⟨fun _ => rfl, fun _ => rfl, fun _ => rfl⟩

/-- Claim C7: the second-round X-basis measurement of `gate_teleport` never
applies the noisy POVM to a Hadamard-rotated state: for every POVM pair,
every 5-qubit running state and every sampled outcome, the step raises
`TypeError` at the Hadamard conjugation itself (dims `[[8,2,2]]` against
`[[2,2,2,2,2]]`); moreover the rotated state is assigned to a variable that
is never read, and `measure_povm` is called on the unrotated state with
4-qubit POVMs. -/
theorem gtXmeasRound2_always_raises_dims_typeerror :
    ∀ (p0 p1 : Qobj) (m : ℕ → ℕ → Q2) (r : ℕ),
      gtXmeasRound2 p0 p1 ⟨[2, 2, 2, 2, 2], [2, 2, 2, 2, 2], m⟩ r =
        .error .typeErrorIncompatibleDims :=
  fun _ _ _ _ => rfl

/-- Claim C8 counterexample: with both fidelities equal to 2 — far outside
[0,1] — `merge` does not fail with a `ParameterOutOfRange` error (it fails
with the unrelated `TypeError` of the one-argument `bell_dm` call), and
`noisy_meas` happily returns a POVM pair computed from the out-of-range
fidelity: no range validation exists. -/
theorem merge_out_of_range_counterexample :
    merge [1, 0, 0, 0] [1, 0, 0, 0] 2 2 0 = .error .typeErrorMissingArg ∧
    PyErr.typeErrorMissingArg ≠ PyErr.paramOutOfRange ∧
    ∃ p, noisyMeas 2 = .ok p :=
  ⟨rfl, by decide, ⟨_, rfl⟩⟩

/-- Claim C8 (amended): fidelities outside [0,1] are not validated
anywhere: for any out-of-range `cnot_fid` or `meas_fid`, `noisy_meas`
still returns its operator pair, and `merge` and `gate_teleport` raise
only the `TypeError` of the one-argument `bell_dm` call — never a
`ParameterOutOfRange` error. -/
theorem no_fidelity_range_validation
    (f g : ℚ) (s1 s2 : List ℚ) (r r1 r2 r3 r4 : ℕ)
    (_h : (f < 0 ∨ 1 < f) ∨ (g < 0 ∨ 1 < g)) :
    merge s1 s2 f g r = .error .typeErrorMissingArg ∧
    gateTeleport s1 s2 f g r1 r2 r3 r4 = .error .typeErrorMissingArg ∧
    (∃ p, noisyMeas f = .ok p) ∧ (∃ p, noisyMeas g = .ok p) ∧
    merge s1 s2 f g r ≠ .error .paramOutOfRange ∧
    gateTeleport s1 s2 f g r1 r2 r3 r4 ≠ .error .paramOutOfRange :=
  ⟨rfl, rfl, ⟨_, rfl⟩, ⟨_, rfl⟩,
    fun h => by simp [merge, bellDmOneArg, Bind.bind, Except.bind] at h,
    fun h => by simp [gateTeleport, bellDmOneArg, Bind.bind, Except.bind] at h⟩

/-- Witness for claim C8: the amended statement discharged at the concrete
out-of-range fidelity pair (2, 2). -/
theorem no_fidelity_range_validation_witness :
    merge [1, 0, 0, 0] [1, 0, 0, 0] 2 2 0 = .error .typeErrorMissingArg ∧
    gateTeleport [1, 0, 0, 0] [1, 0, 0, 0] 2 2 0 0 0 0 =
      .error .typeErrorMissingArg ∧
    (∃ p, noisyMeas 2 = .ok p) ∧ (∃ p, noisyMeas 2 = .ok p) ∧
    merge [1, 0, 0, 0] [1, 0, 0, 0] 2 2 0 ≠ .error .paramOutOfRange ∧
    gateTeleport [1, 0, 0, 0] [1, 0, 0, 0] 2 2 0 0 0 0 ≠
      .error .paramOutOfRange :=
  no_fidelity_range_validation 2 2 [1, 0, 0, 0] [1, 0, 0, 0] 0 0 0 0 0
    (Or.inl (Or.inr (by norm_num)))

/-- Claim C10 counterexample: at the malformed input `state = [1/2, 1/2]`,
`elem_order = [0]` (mismatched lengths), `bell_dm` does raise: the consumed
pair has Bell index 0, `format(0, "b")` is the one-character string `"0"`,
and QuTiP `bell_state` rejects it. -/
theorem bellDm_raises_on_malformed_input :
    bellDm [1 / 2, 1 / 2] [0] = .error .invalidBellStateStr := rfl

/-- Lists zipped together only consume their common prefix. -/
lemma zip_take_take (s : List ℚ) (o : List ℕ) :
    s.zip o = (s.take o.length).zip (o.take s.length) := by
  induction s generalizing o with
  | nil => simp
  | cons a s ih =>
    cases o with
    | nil => simp
    | cons b o => simpa using ih o

/-- Claim C10 (amended): `bell_dm` raises no error from an argument-length
mismatch as such — `zip` silently ignores the excess entries of the longer
argument, and when either argument is empty the loop never runs and the
plain integer 0 is returned; but the function is not raise-free: whenever
a consumed pair has Bell index 0 or 1, `format(idx, "b")` yields a
one-character string that QuTiP `bell_state` rejects, and the error
propagates. -/
theorem bellDm_zip_and_error_behavior :
    (∀ s : List ℚ, bellDm s [] = .ok (.pyInt 0)) ∧
    (∀ o : List ℕ, bellDm [] o = .ok (.pyInt 0)) ∧
    (∀ (s : List ℚ) (o : List ℕ),
      bellDm s o = bellDm (s.take o.length) (o.take s.length)) ∧
    (∀ (e : ℚ) (s : List ℚ) (o : List ℕ) (idx : ℕ), idx = 0 ∨ idx = 1 →
      bellDm (e :: s) (idx :: o) = .error .invalidBellStateStr) := by
  refine ⟨fun s => ?_, fun o => rfl, fun s o => ?_, fun e s o idx h => ?_⟩
  · simp [bellDm, List.zip_nil_right, bellDmLoop]
  · unfold bellDm
    rw [zip_take_take]
  · rcases h with h | h <;> subst h <;> rfl

/-- Witness for claim C10: the amended statement discharged at concrete
inputs — an empty `elem_order` returns the integer 0, and a consumed Bell
index 0 raises. -/
theorem bellDm_zip_and_error_behavior_witness :
    bellDm [(1 : ℚ)] [] = .ok (.pyInt 0) ∧
    bellDm [(1 : ℚ)] [0] = .error .invalidBellStateStr :=
  ⟨bellDm_zip_and_error_behavior.1 [(1 : ℚ)],
   bellDm_zip_and_error_behavior.2.2.2 1 [] [] 0 (Or.inl rfl)⟩

/-- Claim C4: the 4-branch noisy-CNOT combination of `gate_teleport`
(lines 142 and 197) does not use the claimed weights: the two
single-success branches are weighted by `cnot_fid` instead of
`cnot_fid·(1−cnot_fid)`, so for trace-one branch states on common
dimensions the combined operator has trace `2·cnot_fid² + 1` instead
of 1 — the coded weights fail to sum to 1 whenever `cnot_fid ≠ 0`,
whereas the weights stated by the claim do sum to 1. -/
theorem postCnotCombine_trace_weights (f : ℚ) (d : List ℕ)
    (Am Bm Cm Dm : ℕ → ℕ → Q2)
    (tA : traceQ ⟨d, d, Am⟩ = 1) (tB : traceQ ⟨d, d, Bm⟩ = 1)
    (tC : traceQ ⟨d, d, Cm⟩ = 1) (tD : traceQ ⟨d, d, Dm⟩ = 1) :
    ∃ q, postCnotCombine f ⟨d, d, Am⟩ ⟨d, d, Bm⟩ ⟨d, d, Cm⟩ ⟨d, d, Dm⟩ = .ok q ∧
      traceQ q = Q2.ofRat (2 * f ^ 2 + 1) ∧
      (f ≠ 0 → traceQ q ≠ 1) ∧
      f ^ 2 + 2 * (f * (1 - f)) + (1 - f) ^ 2 = 1 := by
  replace tA : ∑ i ∈ Finset.range d.prod, Am i i = 1 := tA
  replace tB : ∑ i ∈ Finset.range d.prod, Bm i i = 1 := tB
  replace tC : ∑ i ∈ Finset.range d.prod, Cm i i = 1 := tC
  replace tD : ∑ i ∈ Finset.range d.prod, Dm i i = 1 := tD
  have h1 : qadd ⟨d, d, Bm⟩ ⟨d, d, Cm⟩ =
      .ok ⟨d, d, fun i j => Bm i j + Cm i j⟩ := by
    simp [qadd]
  have h2 : qadd (qsmul (Q2.ofRat (f ^ 2)) ⟨d, d, Am⟩)
      (qsmul (Q2.ofRat f) ⟨d, d, fun i j => Bm i j + Cm i j⟩) =
      .ok ⟨d, d, fun i j =>
        Q2.ofRat (f ^ 2) * Am i j + Q2.ofRat f * (Bm i j + Cm i j)⟩ := by
    simp [qadd, qsmul]
  have h3 : qadd
      (⟨d, d, fun i j =>
        Q2.ofRat (f ^ 2) * Am i j + Q2.ofRat f * (Bm i j + Cm i j)⟩ : Qobj)
      (qsmul (Q2.ofRat ((1 - f) ^ 2)) ⟨d, d, Dm⟩) =
      .ok ⟨d, d, fun i j =>
        (Q2.ofRat (f ^ 2) * Am i j + Q2.ofRat f * (Bm i j + Cm i j)) +
          Q2.ofRat ((1 - f) ^ 2) * Dm i j⟩ := by
    simp [qadd, qsmul]
  have hq : postCnotCombine f ⟨d, d, Am⟩ ⟨d, d, Bm⟩ ⟨d, d, Cm⟩ ⟨d, d, Dm⟩ =
      .ok ⟨d, d, fun i j =>
        (Q2.ofRat (f ^ 2) * Am i j + Q2.ofRat f * (Bm i j + Cm i j)) +
          Q2.ofRat ((1 - f) ^ 2) * Dm i j⟩ := by
    unfold postCnotCombine
    rw [h1, exceptBind_ok, h2, exceptBind_ok, h3]
  have htr : traceQ
      (⟨d, d, fun i j =>
        (Q2.ofRat (f ^ 2) * Am i j + Q2.ofRat f * (Bm i j + Cm i j)) +
          Q2.ofRat ((1 - f) ^ 2) * Dm i j⟩ : Qobj) =
      Q2.ofRat (2 * f ^ 2 + 1) := by
    show (∑ i ∈ Finset.range d.prod,
      ((Q2.ofRat (f ^ 2) * Am i i + Q2.ofRat f * (Bm i i + Cm i i)) +
        Q2.ofRat ((1 - f) ^ 2) * Dm i i)) = Q2.ofRat (2 * f ^ 2 + 1)
    rw [Finset.sum_add_distrib, Finset.sum_add_distrib, ← Finset.mul_sum,
      ← Finset.mul_sum, ← Finset.mul_sum, Finset.sum_add_distrib, tA, tB, tC, tD]
    ext <;> simp
    ring
  refine ⟨_, hq, htr, fun hf hcontra => ?_, by ring⟩
  rw [htr, ← Q2.ofRat_one] at hcontra
  have h4 := Q2.ofRat_injective hcontra
  have h5 : f ^ 2 = 0 := by linarith
  exact hf (pow_eq_zero_iff (by norm_num : (2 : ℕ) ≠ 0) |>.mp h5)

/-- Witness for claim C4: the weight statement discharged at the concrete
fidelity 1/2 with all four branch states the one-qubit projector
`|0⟩⟨0|`; the combined trace is 3/2. -/
theorem postCnotCombine_trace_weights_witness :
    ∃ q, postCnotCombine (1 / 2) unitProj unitProj unitProj unitProj = .ok q ∧
      traceQ q = Q2.ofRat (2 * (1 / 2 : ℚ) ^ 2 + 1) ∧
      ((1 / 2 : ℚ) ≠ 0 → traceQ q ≠ 1) ∧
      (1 / 2 : ℚ) ^ 2 + 2 * ((1 / 2) * (1 - 1 / 2)) + (1 - (1 / 2 : ℚ)) ^ 2 = 1 :=
  postCnotCombine_trace_weights (1 / 2) [2] unitProj.mat unitProj.mat
    unitProj.mat unitProj.mat (by simp [traceQ, unitProj, Finset.sum_range_succ])
    (by simp [traceQ, unitProj, Finset.sum_range_succ])
    (by simp [traceQ, unitProj, Finset.sum_range_succ])
    (by simp [traceQ, unitProj, Finset.sum_range_succ])

lemma qmul_basisProj (k : ℕ) (hk : k < 2) :
    qmul (basisQ 2 k) (dagQ (basisQ 2 k)) = .ok (projKet k) := by
  refine congrArg Except.ok (Qobj.ext_of rfl rfl fun i j => ?_)
  simp only [qmul, basisQ, dagQ, projKet, List.prod_cons, List.prod_nil,
    mul_one, Finset.sum_range_one]
  by_cases hi : i = k
  · by_cases hj : j = k
    · simp [hi, hj, hk]
    · simp [hi, hj, hk, Ne.symm hj]
  · by_cases hj : j = k
    · simp [hi, hj, hk, Ne.symm hi]
    · simp [hi, hj, hk]

lemma noisyMeas_eq_spec (f : ℚ) :
    noisyMeas f = .ok (noisyMeasSpecElem f 0, noisyMeasSpecElem f 1) := by
  have h00 := qmul_basisProj 0 (by norm_num)
  have h11 := qmul_basisProj 1 (by norm_num)
  have hv0 : qadd (qsmul (Q2.ofRat f) (projKet 0))
      (qsmul (Q2.ofRat (1 - f)) (projKet 1)) = .ok (noisyMeasSpecElem f 0) := by
    refine congrArg Except.ok (Qobj.ext_of rfl rfl fun i j => ?_)
    simp only [qadd, qsmul, projKet, noisyMeasSpecElem]
    rcases Nat.lt_or_ge i 2 with hi | hi
    · rcases Nat.lt_or_ge j 2 with hj | hj
      · interval_cases i <;> interval_cases j <;> simp
      · have h1 : i ≠ j := by omega
        have h2 : j ≠ 1 := by omega
        simp [h1, h2]
    · have h1 : ¬ i < 2 := by omega
      have h2 : i ≠ 0 := by omega
      have h3 : i ≠ 1 := by omega
      simp [h1, h2, h3]
  have hv1 : qadd (qsmul (Q2.ofRat f) (projKet 1))
      (qsmul (Q2.ofRat (1 - f)) (projKet 0)) = .ok (noisyMeasSpecElem f 1) := by
    refine congrArg Except.ok (Qobj.ext_of rfl rfl fun i j => ?_)
    simp only [qadd, qsmul, projKet, noisyMeasSpecElem]
    rcases Nat.lt_or_ge i 2 with hi | hi
    · rcases Nat.lt_or_ge j 2 with hj | hj
      · interval_cases i <;> interval_cases j <;> simp
      · have h1 : i ≠ j := by omega
        have h2 : j ≠ 1 := by omega
        simp [h1, h2]
    · have h1 : ¬ i < 2 := by omega
      have h2 : i ≠ 0 := by omega
      have h3 : i ≠ 1 := by omega
      simp [h1, h2, h3]
  simp only [noisyMeas]
  rw [h00, exceptBind_ok, h11, exceptBind_ok, hv0, exceptBind_ok, hv1,
    exceptBind_ok]

lemma specElem_sum_identity (f : ℚ) :
    qadd (noisyMeasSpecElem f 0) (noisyMeasSpecElem f 1) = .ok (identityQ 2) := by
  have hc1 : Q2.ofRat f + Q2.ofRat (1 - f) = 1 := by ext <;> simp
  have hc2 : Q2.ofRat (1 - f) + Q2.ofRat f = 1 := by ext <;> simp
  refine congrArg Except.ok (Qobj.ext_of rfl rfl fun i j => ?_)
  simp only [qadd, noisyMeasSpecElem, identityQ]
  rcases Nat.lt_or_ge i 2 with hi | hi
  · rcases Nat.lt_or_ge j 2 with hj | hj
    · interval_cases i <;> interval_cases j <;> simp [hc1, hc2]
    · have h1 : i ≠ j := by omega
      simp [h1]
  · have h1 : ¬ i < 2 := by omega
    simp [h1]

lemma specElem_at_one (k : ℕ) (_hk : k < 2) :
    noisyMeasSpecElem 1 k = projKet k := by
  refine Qobj.ext_of rfl rfl fun i j => ?_
  simp only [noisyMeasSpecElem, projKet]
  by_cases hij : i = j
  · subst hij
    by_cases hik : i = k <;> simp [hik]
  · simp [hij]

lemma specElem_at_half (k : ℕ) (_hk : k < 2) :
    noisyMeasSpecElem (1 / 2) k = qdivs (identityQ 2) (Q2.ofRat 2) := by
  have hinv : Q2.inv (Q2.ofRat 2) = Q2.ofRat (1 / 2) := by
    simp [Q2.inv, Q2.ofRat]
    norm_num
  refine Qobj.ext_of rfl rfl fun i j => ?_
  simp only [qdivs, qsmul, identityQ, noisyMeasSpecElem, hinv]
  by_cases hij : i = j
  · subst hij
    by_cases hi : i < 2
    · by_cases hik : i = k <;> norm_num [hik, hi]
    · simp [hi]
  · simp [hij]

/-- Claim C9: `noisy_meas(fid)` returns the ordered pair `[M0, M1]` with
`M_k = fid·|k⟩⟨k| + (1−fid)·|1−k⟩⟨1−k|`; the two elements sum to the
one-qubit identity; `noisy_meas(1)` is the exact projective Z measurement,
and `noisy_meas(1/2)` returns identity/2 twice, the maximally noisy
measurement. -/
theorem noisyMeas_matches_spec (f : ℚ) :
    noisyMeas f = .ok (noisyMeasSpecElem f 0, noisyMeasSpecElem f 1) ∧
    qadd (noisyMeasSpecElem f 0) (noisyMeasSpecElem f 1) = .ok (identityQ 2) ∧
    noisyMeas 1 = .ok (projKet 0, projKet 1) ∧
    noisyMeas (1 / 2) =
      .ok (qdivs (identityQ 2) (Q2.ofRat 2), qdivs (identityQ 2) (Q2.ofRat 2)) := by
  refine ⟨noisyMeas_eq_spec f, specElem_sum_identity f, ?_, ?_⟩
  · rw [noisyMeas_eq_spec 1, specElem_at_one 0 (by norm_num),
      specElem_at_one 1 (by norm_num)]
  · rw [noisyMeas_eq_spec (1 / 2), specElem_at_half 0 (by norm_num),
      specElem_at_half 1 (by norm_num)]

end QutipGhz
